import Mathlib

/-!
Verification development for the `stark_jr_cw` repository
(`src/processor.py`, `src/bot.py`).

The development is a shallow embedding of `processor.py`'s
`QueueProcessor`: pure Lean functions model `process`, `run_ffmpeg`,
`_cleanup_files`, `_check_file_size`, the m3u8 validation, the artifact
path derivation, and the worker loop; small transition systems model the
concurrency skeleton of the worker pool (`asyncio.Semaphore`) and of
`stop()` / `asyncio.Queue.join()`.

Modelling conventions:
* the filesystem is the list of existing path strings;
* effects (subprocess spawns, Telegram sends, uploads, log lines) are
  recorded as an ordered trace of `Event`s;
* everything nondeterministic from the program's point of view
  (subprocess exit codes and stderr, file sizes produced by ffmpeg,
  availability of the Telethon session, network send outcomes, the
  random uuid-hex suffix, paths whose `unlink` raises) is supplied by an
  `Env` record, so the model is a deterministic function of the
  environment;
* Python exceptions are the `Except` monad: `ValueError` and the bare
  `Exception(...)` raises of the source are the two constructors of
  `PyError`.
-/

/-- Decimal rendering with explicit fuel (structural recursion, so the
kernel can evaluate it).  The fuel is always strictly larger than the
argument, hence never runs out. -/
def natToDecAux : Nat → Nat → List Char
  | 0, _ => []
  | fuel + 1, n =>
    if n < 10 then [Nat.digitChar n]
    else natToDecAux fuel (n / 10) ++ [Nat.digitChar (n % 10)]

/-- Python's `str(n)` for a non-negative int: decimal digits, most
significant first.  (`Nat.digitChar` maps 0-9 to the matching
character, exactly as Python renders each digit.) -/
def natToDec (n : Nat) : List Char :=
  natToDecAux (n + 1) n

/-- The decimal string of `n`. -/
def natStr (n : Nat) : String :=
  String.mk (natToDec n)

theorem digitChar_inj_lt {a b : Nat} (ha : a < 10) (hb : b < 10)
    (h : Nat.digitChar a = Nat.digitChar b) : a = b := by
  interval_cases a <;> interval_cases b <;> first | rfl | (exact absurd h (by decide))

theorem natToDecAux_fuel_irrel (a b n : Nat) (h₁ : n < a) (h₂ : n < b) :
    natToDecAux a n = natToDecAux b n := by
  induction n using Nat.strong_induction_on generalizing a b with
  | _ n ih =>
    match a, b with
    | g₁ + 1, g₂ + 1 =>
      by_cases hn : n < 10
      · rw [natToDecAux, natToDecAux, if_pos hn, if_pos hn]
      · rw [natToDecAux, natToDecAux, if_neg hn, if_neg hn]
        have hdiv : n / 10 < n := Nat.div_lt_self (by omega) (by omega)
        rw [ih (n / 10) hdiv g₁ g₂ (by omega) (by omega)]

theorem natToDec_eq_small {n : Nat} (h : n < 10) :
    natToDec n = [Nat.digitChar n] := by
  rw [natToDec, natToDecAux, if_pos h]

theorem natToDec_eq_big {n : Nat} (h : ¬ n < 10) :
    natToDec n = natToDec (n / 10) ++ [Nat.digitChar (n % 10)] := by
  rw [natToDec, natToDecAux, if_neg h]
  have hdiv : n / 10 < n := Nat.div_lt_self (by omega) (by omega)
  rw [natToDecAux_fuel_irrel n (n / 10 + 1) (n / 10) (by omega)
    (Nat.lt_succ_self _)]
  rfl

theorem natToDec_ne_nil (n : Nat) : natToDec n ≠ [] := by
  by_cases h : n < 10
  · rw [natToDec_eq_small h]
    simp
  · rw [natToDec_eq_big h]
    simp

theorem natToDec_length_ge_two {n : Nat} (h : ¬ n < 10) :
    2 ≤ (natToDec n).length := by
  rw [natToDec_eq_big h, List.length_append]
  have := natToDec_ne_nil (n / 10)
  have : 1 ≤ (natToDec (n / 10)).length := by
    cases hc : natToDec (n / 10) with
    | nil => exact absurd hc this
    | cons a l => simp
  simp only [List.length_cons, List.length_nil]
  omega

theorem natToDec_injective : Function.Injective natToDec := by
  intro a b
  induction a using Nat.strong_induction_on generalizing b with
  | _ a ih =>
    intro h
    by_cases ha : a < 10 <;> by_cases hb : b < 10
    · rw [natToDec_eq_small ha, natToDec_eq_small hb] at h
      exact digitChar_inj_lt ha hb (List.singleton_injective h)
    · rw [natToDec_eq_small ha, natToDec_eq_big hb] at h
      have hlen := congrArg List.length h
      have h2 := natToDec_length_ge_two hb
      rw [natToDec_eq_big hb] at h2
      simp only [List.length_singleton] at hlen
      omega
    · rw [natToDec_eq_big ha, natToDec_eq_small hb] at h
      have hlen := congrArg List.length h
      have h2 := natToDec_length_ge_two ha
      rw [natToDec_eq_big ha] at h2
      simp only [List.length_singleton] at hlen
      omega
    · rw [natToDec_eq_big ha, natToDec_eq_big hb] at h
      obtain ⟨h1, h2⟩ := List.append_inj' h (by simp)
      have hdiv : a / 10 = b / 10 :=
        ih (a / 10) (Nat.div_lt_self (by omega) (by omega)) h1
      have hmod : a % 10 = b % 10 :=
        digitChar_inj_lt (Nat.mod_lt _ (by omega)) (Nat.mod_lt _ (by omega))
          (List.singleton_injective h2)
      omega

theorem natToDec_all_digits (n : Nat) : ∀ c ∈ natToDec n, c.isDigit := by
  induction n using Nat.strong_induction_on with
  | _ n ih =>
    by_cases h : n < 10
    · rw [natToDec_eq_small h]
      intro c hc
      simp only [List.mem_singleton] at hc
      subst hc
      interval_cases n <;> decide
    · rw [natToDec_eq_big h]
      intro c hc
      rw [List.mem_append] at hc
      rcases hc with hc | hc
      · exact ih (n / 10) (Nat.div_lt_self (by omega) (by omega)) c hc
      · simp only [List.mem_singleton] at hc
        subst hc
        have : n % 10 < 10 := Nat.mod_lt _ (by omega)
        interval_cases hm : n % 10 <;> decide

/-! ### String helpers shared by the embedding -/

/-- Python's `s[-n:]`: the last `n` characters of `s` (all of `s` when
`s` is shorter than `n`). -/
def strTakeRight (s : String) (n : Nat) : String :=
  String.mk (s.data.drop (s.data.length - n))

/-- Python's `pat in s`: `pat` occurs contiguously inside `s`. -/
def strContains (s pat : String) : Bool :=
  decide (pat.data <:+: s.data)

/-- Python's `s.startswith(p)`. -/
def strStartsWith (s p : String) : Bool :=
  p.data.isPrefixOf s.data

/-- Python's `s.lower()`, restricted to ASCII case mapping (the URLs
and extension markers the program lowercases are ASCII). -/
def strToLower (s : String) : String :=
  String.mk (s.data.map Char.toLower)

theorem string_data_inj {s t : String} (h : s.data = t.data) : s = t := by
  cases s
  cases t
  exact congrArg String.mk h

theorem strTakeRight_all {s : String} {n : Nat} (h : s.data.length ≤ n) :
    strTakeRight s n = s := by
  unfold strTakeRight
  rw [Nat.sub_eq_zero_of_le h, List.drop_zero]

theorem strContains_append_left (a b : String) :
    strContains (a ++ b) b = true := by
  unfold strContains
  rw [decide_eq_true_iff, String.data_append]
  exact ⟨a.data, [], by simp⟩

/-- Index of the last occurrence of `c` in the list, if any. -/
def lastIdxOf (c : Char) : List Char → Option Nat
  | [] => none
  | x :: xs =>
    match lastIdxOf c xs with
    | some i => some (i + 1)
    | none => if x = c then some 0 else none

theorem lastIdxOf_eq_none {c : Char} {l : List Char} (h : c ∉ l) :
    lastIdxOf c l = none := by
  induction l with
  | nil => rfl
  | cons x xs ih =>
    simp only [List.mem_cons, not_or] at h
    unfold lastIdxOf
    rw [ih h.2, if_neg (by intro hx; exact h.1 hx.symm)]

theorem lastIdxOf_append_sep {c : Char} {pre post : List Char}
    (h : c ∉ post) :
    lastIdxOf c (pre ++ c :: post) = some pre.length := by
  induction pre with
  | nil =>
    simp only [List.nil_append, List.length_nil]
    unfold lastIdxOf
    rw [lastIdxOf_eq_none h, if_pos rfl]
  | cons x xs ih =>
    simp only [List.cons_append, List.length_cons]
    unfold lastIdxOf
    rw [ih]

/-- `pathlib.Path.with_suffix`: replace the suffix of the final path
component (the part of the component after its last dot, when that dot
is not the component's first character) with `suffix`; if the component
has no suffix, append `suffix`. -/
def with_suffix (p : String) (suffix : String) : String :=
  let chars := p.data
  let nameStart := match lastIdxOf '/' chars with
    | some i => i + 1
    | none => 0
  let dir := chars.take nameStart
  let name := chars.drop nameStart
  let newName := match lastIdxOf '.' name with
    | some 0 => name ++ suffix.data
    | some i => name.take i ++ suffix.data
    | none => name ++ suffix.data
  String.mk (dir ++ newName)

/-- On a path `dir ++ "/" ++ name` whose final component contains no
slash and no dot, `with_suffix` is a plain append. -/
theorem with_suffix_append {dir name : String} (suffix : String)
    (hslash : '/' ∉ name.data) (hdot : '.' ∉ name.data) :
    with_suffix (dir ++ "/" ++ name) suffix =
      (dir ++ "/" ++ name) ++ suffix := by
  unfold with_suffix
  have hdata : (dir ++ "/" ++ name).data = dir.data ++ '/' :: name.data := by
    rw [String.data_append, String.data_append, List.append_assoc]
    rfl
  simp only [hdata]
  rw [lastIdxOf_append_sep hslash]
  have htake : (dir.data ++ '/' :: name.data).take (dir.data.length + 1) =
      dir.data ++ ['/'] := by
    rw [List.take_append_eq_append_take, List.take_of_length_le (by omega),
      Nat.add_sub_cancel_left]
    rfl
  have hdrop : (dir.data ++ '/' :: name.data).drop (dir.data.length + 1) =
      name.data := by
    rw [List.drop_append_eq_append_drop, Nat.add_sub_cancel_left]
    simp
  rw [htake, hdrop, lastIdxOf_eq_none hdot]
  apply string_data_inj
  rw [String.data_append, hdata]
  simp

/-! ### Data model -/

/-- Observable effects of a run, in program order.  Telegram
`send_message` (a fresh message), `edit_text` on the status message,
the two upload backends, subprocess creation and log lines are each
their own constructor. -/
inductive Event where
  | spawnSubprocess (cmd : List String)
  | sendMessage (chat : Nat) (text : String)
  | editStatus (text : String)
  | uploadTelethon (chat : Nat) (path : String) (caption : String)
  | uploadBotDocument (chat : Nat) (path : String) (filename : String) (caption : String)
  | logDebug (text : String)
  | logWarning (text : String)
  | logError (text : String)
  deriving DecidableEq, Repr

/-- A raised Python exception: `ValueError(msg)` or `Exception(msg)`. -/
inductive PyError where
  | valueError (msg : String)
  | exception (msg : String)
  deriving DecidableEq, Repr

/-- `str(e)` for the exceptions the program raises. -/
def errMsg : PyError → String
  | .valueError m => m
  | .exception m => m

/-- The filesystem: the list of paths that currently exist. -/
abbrev FS := List String

/-- `QueueProcessor.__init__` configuration (constructor arguments plus
the `start()`-time Telethon outcome).  `telethonClient` is true exactly
when a session string, api id and api hash were supplied and the
session authorized, i.e. when `self.telethon_client` is non-None. -/
structure Config where
  publicDir : String
  thumbPath : Option String
  watermarkText : String
  channelLink : String
  maxConcurrent : Nat
  maxFileSizeBytes : Nat
  ffmpeg : String
  telethonClient : Bool
  deriving DecidableEq, Repr

/-- A job descriptor (`meta` dict built in `bot.py`). -/
structure JobMeta where
  batch : String
  subject : String
  lecture_no : Nat
  total : Nat
  m3u8 : String
  requester_chat : Nat
  deriving DecidableEq, Repr

/-- Everything the run observes from the outside world: subprocess exit
codes and stderr, the sizes ffmpeg leaves on disk, the random
`uuid4().hex[:6]` suffix, which fonts exist, whether the network sends
succeed, and the free disk space. -/
structure Env where
  freeSpace : Nat
  statusOk : Bool
  netErrMsg : String
  uid : String
  fetchExit : Nat
  fetchStderr : String
  tmpSize : Nat
  watermarkExit : Nat
  watermarkStderr : String
  waterSize : Nat
  thumbExists : Bool
  thumbExit : Nat
  thumbStderr : String
  thumbFinalSize : Nat
  uploadOk : Bool
  notifyOk : Bool
  systemFonts : List String
  deriving DecidableEq, Repr

/-- Result of one `process` call: the Python return-or-raise, the
filesystem on return, and the ordered effect trace. -/
structure RunResult where
  res : Except PyError Unit
  fs : FS
  tr : List Event

/-! ### Leaf functions of `processor.py` -/

/-- Line 222: `meta["m3u8"] and meta["m3u8"].startswith("http") and
".m3u8" in meta["m3u8"].lower()`. -/
def valid_m3u8 (url : String) : Bool :=
  url != "" && strStartsWith url "http" && strContains (strToLower url) ".m3u8"

/-- `_get_font_path` candidate list (lines 185-192). -/
def font_candidates : List String :=
  ["/usr/share/fonts/truetype/dejavu/DejaVuSans-Bold.ttf",
   "/usr/share/fonts/truetype/liberation/LiberationSans-Bold.ttf",
   "/usr/share/fonts/truetype/ubuntu/Ubuntu-B.ttf",
   "/usr/share/fonts/TTF/DejaVuSans-Bold.ttf",
   "/System/Library/Fonts/Helvetica.ttc",
   "C:\\\\Windows\\\\Fonts\\\\arialbd.ttf"]

/-- `_get_font_path`: first candidate that exists, else the generic
family name `"sans"`. -/
def get_font_path (systemFonts : List String) : String :=
  (font_candidates.find? (fun f => systemFonts.contains f)).getD "sans"

/-- `_sanitize_filename`: keep alphanumerics, space, dash, underscore;
strip trailing whitespace; truncate to 50 characters. -/
def sanitize_filename (text : String) : String :=
  String.mk
    ((((text.data.filter
        (fun c => c.isAlphanum || c == ' ' || c == '-' || c == '_')).reverse.dropWhile
          Char.isWhitespace).reverse).take 50)

/-- Characters `shlex.quote` treats as safe (its `_find_unsafe` regex
matches everything except word characters and `@ % + = : , .` plus the
slash and the dash). -/
def shlexSafeChar (c : Char) : Bool :=
  c.isAlphanum || c == '_' || c == '@' || c == '%' || c == '+' || c == '=' ||
    c == ':' || c == ',' || c == '.' || c == '/' || c == '-'

/-- `shlex.quote`: return the string unchanged when every character is
safe, else wrap it in single quotes, escaping embedded single quotes
(written `\x27` here) as `\x27"\x27"\x27`. -/
def shlex_quote (s : String) : String :=
  if s = "" then "\x27\x27"
  else if s.data.all shlexSafeChar then s
  else "\x27" ++ s.replace "\x27" "\x27\"\x27\"\x27" ++ "\x27"

/-- `run_ffmpeg` (lines 152-171): a non-zero exit raises
`Exception("FFmpeg error: " + stderr.decode()[-1000:])`. -/
def run_ffmpeg (exitCode : Nat) (stderr : String) : Except PyError Unit :=
  if exitCode ≠ 0 then
    .error (.exception ("FFmpeg error: " ++ strTakeRight stderr 1000))
  else
    .ok ()

/-- `_check_file_size` (lines 204-213).  The source renders the sizes
as MB/GB floats inside the message; the model renders the raw byte
counts — only the control flow and message prefix matter to the
claims. -/
def check_file_size (maxBytes size : Nat) : Except PyError Unit :=
  if size > maxBytes then
    .error (.exception ("Size check failed: File too large: " ++ natStr size ++
      " > " ++ natStr maxBytes ++ " limit"))
  else if size = 0 then
    .error (.exception "Size check failed: Output file is empty")
  else
    .ok ()

/-- Remove a path from the filesystem (`path.unlink()`). -/
def fs_remove (fs : FS) (p : String) : FS :=
  fs.filter (fun q => q != p)

/-- Filesystem and log output of `_cleanup_files`. -/
structure CleanOut where
  fs : FS
  tr : List Event

/-- `_cleanup_files` (lines 173-181): for each path, delete it if it
exists; a failing `unlink` (modelled by membership in `locked`) is
caught and logged, never raised — hence the return type has no error
case. -/
def cleanup_files (locked : List String) : List String → FS → CleanOut
  | [], fs => ⟨fs, []⟩
  | p :: rest, fs =>
    if p ∈ fs then
      if p ∈ locked then
        let out := cleanup_files locked rest fs
        ⟨out.fs, Event.logWarning ("Failed to delete " ++ p) :: out.tr⟩
      else
        let out := cleanup_files locked rest (fs_remove fs p)
        ⟨out.fs, Event.logDebug ("Cleaned up " ++ p) :: out.tr⟩
    else
      cleanup_files locked rest fs

/-! ### Artifact naming (lines 236-241) -/

/-- `base = self.public_dir / f"lec_{lecture_no}_{uid}"`. -/
def base_path (publicDir : String) (lecture_no : Nat) (uid : String) : String :=
  publicDir ++ "/" ++ ("lec_" ++ natStr lecture_no ++ "_" ++ uid)

def tmp_path (publicDir : String) (lecture_no : Nat) (uid : String) : String :=
  with_suffix (base_path publicDir lecture_no uid) ".tmp.mp4"

def water_path (publicDir : String) (lecture_no : Nat) (uid : String) : String :=
  with_suffix (base_path publicDir lecture_no uid) ".water.mp4"

def final_path (publicDir : String) (lecture_no : Nat) (uid : String) : String :=
  with_suffix (base_path publicDir lecture_no uid) ".mp4"

def watermark_txt_path (publicDir : String) (lecture_no : Nat) (uid : String) : String :=
  with_suffix (base_path publicDir lecture_no uid) ".txt"

/-- The four derived paths, in the order `_cleanup_files` receives them
on line 350. -/
def derived_paths (publicDir : String) (lecture_no : Nat) (uid : String) : List String :=
  [tmp_path publicDir lecture_no uid, water_path publicDir lecture_no uid,
   final_path publicDir lecture_no uid, watermark_txt_path publicDir lecture_no uid]

/-! ### The three ffmpeg invocations (lines 246-252, 269-275, 282-289) -/

/-- Stage 1 (fetch/remux) argument vector. -/
def cmd1 (ffmpeg url tmp : String) : List String :=
  [ffmpeg, "-loglevel", "error", "-stats", "-i", url,
   "-c", "copy", "-bsf:a", "aac_adtstoasc", tmp]

/-- The drawtext filter expression (lines 262-267). -/
def draw_filter (fontPath wtxt : String) : String :=
  "drawtext=fontfile=" ++ shlex_quote fontPath ++ ":textfile=" ++
    shlex_quote wtxt ++ ":fontsize=22:fontcolor=white@0.9:" ++
    "x=20:y=20:box=1:boxcolor=black@0.4:boxborderw=2"

/-- Stage 2 (watermark) argument vector. -/
def cmd2 (ffmpeg tmp draw water : String) : List String :=
  [ffmpeg, "-y", "-loglevel", "error", "-i", tmp, "-filter_complex", draw,
   "-preset", "ultrafast", "-crf", "28", "-movflags", "+faststart", water]

/-- Stage 3 (thumbnail attach) argument vector. -/
def cmd3 (ffmpeg water thumb final : String) : List String :=
  [ffmpeg, "-y", "-loglevel", "error", "-i", water, "-i", thumb,
   "-map", "0", "-map", "1", "-c", "copy",
   "-disposition:v:1", "attached_pic", final]

/-! ### Texts of the notifications -/

/-- Line 233: the initial status message.  -/
def initial_status_text (meta : JobMeta) : String :=
  "📥 Processing Lecture " ++ natStr meta.lecture_no ++ "/" ++
    natStr meta.total ++ "…"

/-- Line 342: the success edit. -/
def success_status_text (meta : JobMeta) : String :=
  "✅ Lecture " ++ natStr meta.lecture_no ++ "/" ++ natStr meta.total ++
    " completed!"

/-- Lines 302-314: upload filename and caption.  The source shows the
size as an MB float; the model shows the byte count. -/
def upload_filename (meta : JobMeta) : String :=
  sanitize_filename meta.batch ++ "_" ++ sanitize_filename meta.subject ++
    "_L" ++ natStr meta.lecture_no ++ ".mp4"

def upload_caption (cfg : Config) (meta : JobMeta) (sizeBytes : Nat) : String :=
  "🔥 Stark JR. Batch Engine\n" ++
  "🎯 Batch: " ++ meta.batch ++ "\n" ++
  "📘 Subject: " ++ meta.subject ++ "\n" ++
  "📚 Lecture " ++ natStr meta.lecture_no ++ "/" ++ natStr meta.total ++ "\n" ++
  "💾 Size: " ++ natStr sizeBytes ++ "\n" ++
  "⚡ Extracted By: " ++ cfg.channelLink

/-- Line 145: the worker's failure notification to the requester. -/
def worker_fail_text (meta : JobMeta) (e : PyError) : String :=
  "❌ Error processing lecture " ++ natStr meta.lecture_no ++ ": " ++ errMsg e

/-! ### `process` (lines 215-350) -/

/-- Lines 298-343: the final size check, caption composition and the
upload through whichever backend is active, shared by both thumbnail
branches.  `finalSize` is the byte size the final artifact has on
disk. -/
def upload_and_finish (cfg : Config) (meta : JobMeta) (env : Env)
    (final : String) (finalSize : Nat) (fs : FS) (tr : List Event) : RunResult :=
  match check_file_size cfg.maxFileSizeBytes finalSize with
  | .error e => ⟨.error e, fs, tr⟩
  | .ok _ =>
    let tr4 := tr ++ [Event.editStatus "📤 Uploading..."]
    let caption := upload_caption cfg meta finalSize
    if cfg.telethonClient then
      let tr5 := tr4 ++ [Event.uploadTelethon meta.requester_chat final caption]
      if env.uploadOk then
        ⟨.ok (), fs, tr5 ++ [Event.editStatus (success_status_text meta)]⟩
      else
        ⟨.error (.exception env.netErrMsg), fs, tr5⟩
    else
      let tr5 := tr4 ++
        [Event.logWarning "Telethon not available, using bot token for upload",
         Event.uploadBotDocument meta.requester_chat final
           (upload_filename meta) caption]
      if env.uploadOk then
        ⟨.ok (), fs, tr5 ++ [Event.editStatus (success_status_text meta)]⟩
      else
        ⟨.error (.exception env.netErrMsg), fs, tr5⟩

/-- The `try` body of `process` (lines 243-343): download, watermark,
thumbnail, upload.  A stage's output file enters the filesystem exactly
when its ffmpeg invocation exits 0. -/
def process_body (cfg : Config) (meta : JobMeta) (env : Env)
    (tmp water final wtxt : String) (fs0 : FS) : RunResult :=
  let tr1 : List Event := [Event.editStatus "📥 Step 1/3: Downloading...",
    Event.spawnSubprocess (cmd1 cfg.ffmpeg meta.m3u8 tmp)]
  match run_ffmpeg env.fetchExit env.fetchStderr with
  | .error e => ⟨.error e, fs0, tr1⟩
  | .ok _ =>
  let fs1 := tmp :: fs0
  match check_file_size cfg.maxFileSizeBytes env.tmpSize with
  | .error e => ⟨.error e, fs1, tr1⟩
  | .ok _ =>
  let fs2 := wtxt :: fs1
  let draw := draw_filter (get_font_path env.systemFonts) wtxt
  let tr2 := tr1 ++ [Event.editStatus "🎨 Step 2/3: Watermarking...",
    Event.spawnSubprocess (cmd2 cfg.ffmpeg tmp draw water)]
  match run_ffmpeg env.watermarkExit env.watermarkStderr with
  | .error e => ⟨.error e, fs2, tr2⟩
  | .ok _ =>
  let fs3 := water :: fs2
  match check_file_size cfg.maxFileSizeBytes env.waterSize with
  | .error e => ⟨.error e, fs3, tr2⟩
  | .ok _ =>
  if cfg.thumbPath.isSome && env.thumbExists then
    let tr3 := tr2 ++ [Event.editStatus "🖼️ Step 3/3: Adding thumbnail...",
      Event.spawnSubprocess (cmd3 cfg.ffmpeg water (cfg.thumbPath.getD "") final)]
    match run_ffmpeg env.thumbExit env.thumbStderr with
    | .error e => ⟨.error e, fs3, tr3⟩
    | .ok _ =>
      upload_and_finish cfg meta env final env.thumbFinalSize (final :: fs3) tr3
  else
    let tr3 := tr2 ++
      [Event.logWarning "Thumbnail not found, copying watermarked file"]
    if water ∈ fs3 then
      -- `water.rename(final)`: the bytes move, so the final size is the
      -- watermarked file's size.
      upload_and_finish cfg meta env final env.waterSize
        (final :: fs_remove fs3 water) tr3
    else
      ⟨.error (.exception "Watermark file missing after processing"), fs3, tr3⟩

/-- `process` (lines 215-350): validation and disk-space guard, the
initial status message, path derivation, the `try` body, and the
unconditional `finally: _cleanup_files(tmp, water, final, watermark_txt)`.
`locked` is the set of paths whose `unlink` would raise.  The source
compares `free_space < max_file_size_bytes * 1.5`; the model states the
same inequality as `2 * free < 3 * max`. -/
def process (cfg : Config) (meta : JobMeta) (env : Env)
    (locked : List String) (fs0 : FS) : RunResult :=
  if ¬ valid_m3u8 meta.m3u8 then
    ⟨.error (.valueError "Invalid m3u8 URL (must be HTTP and contain .m3u8)"),
      fs0, []⟩
  else if 2 * env.freeSpace < 3 * cfg.maxFileSizeBytes then
    ⟨.error (.exception ("Insufficient disk space: " ++ natStr env.freeSpace ++
      " available")), fs0, []⟩
  else
    let statusTr := [Event.sendMessage meta.requester_chat (initial_status_text meta)]
    if ¬ env.statusOk then
      ⟨.error (.exception env.netErrMsg), fs0, statusTr⟩
    else
      let tmp := tmp_path cfg.publicDir meta.lecture_no env.uid
      let water := water_path cfg.publicDir meta.lecture_no env.uid
      let final := final_path cfg.publicDir meta.lecture_no env.uid
      let wtxt := watermark_txt_path cfg.publicDir meta.lecture_no env.uid
      let body := process_body cfg meta env tmp water final wtxt fs0
      let errTr : List Event := match body.res with
        | .ok _ => []
        | .error e => [Event.logError ("Processing failed: " ++ errMsg e)]
      let clean := cleanup_files locked [tmp, water, final, wtxt] body.fs
      ⟨body.res, clean.fs, statusTr ++ body.tr ++ errTr ++ clean.tr⟩

/-! ### The worker loop body (lines 129-150) -/

/-- Filesystem and trace left by worker-level code. -/
structure WorkOut where
  fs : FS
  tr : List Event

/-- One iteration of the worker loop around one dequeued job: run
`process`; on any error, log it, best-effort notify the requester
(a failing notification is only logged), and fall through to
`task_done`.  The return type has no error case: no job failure
escapes the loop body. -/
def worker_step (cfg : Config) (meta : JobMeta) (env : Env)
    (locked : List String) (fs : FS) : WorkOut :=
  match (process cfg meta env locked fs).res with
  | .ok _ =>
    ⟨(process cfg meta env locked fs).fs, (process cfg meta env locked fs).tr⟩
  | .error e =>
    let notifTr : List Event :=
      if env.notifyOk then
        [Event.sendMessage meta.requester_chat (worker_fail_text meta e)]
      else
        [Event.logError "Failed to send error notification"]
    ⟨(process cfg meta env locked fs).fs,
      (process cfg meta env locked fs).tr ++
      [Event.logError ("Processing failed for lecture " ++
        natStr meta.lecture_no ++ ": " ++ errMsg e)] ++ notifTr⟩

/-- One enqueued job together with the world it will run against. -/
structure Job where
  meta : JobMeta
  env : Env

/-- The worker loop over a queue of jobs.  The `Nat` component counts
`task_done` calls; the `finally` on line 149-150 makes it fire once per
dequeued job, so it equals the number of jobs regardless of failures. -/
def worker_run (cfg : Config) (locked : List String) :
    List Job → FS → WorkOut × Nat
  | [], fs => (⟨fs, []⟩, 0)
  | j :: rest, fs =>
    let w := worker_step cfg j.meta j.env locked fs
    let out := worker_run cfg locked rest w.fs
    (⟨out.1.fs, w.tr ++ out.1.tr⟩, out.2 + 1)

/-! ### Trace observers used by the claims -/

/-- A failure notification: a fresh `send_message` whose text starts
with the cross mark (only the worker's error path sends one). -/
def is_failure_notif : Event → Bool
  | .sendMessage _ t => t.data.head? == some '❌'
  | _ => false

/-- Number of failure notifications in a trace. -/
def failNotifCount (tr : List Event) : Nat :=
  tr.countP is_failure_notif

def Event.isUpload : Event → Bool
  | .uploadTelethon _ _ _ => true
  | .uploadBotDocument _ _ _ _ => true
  | _ => false

def Event.isSpawn : Event → Bool
  | .spawnSubprocess _ => true
  | _ => false

/-! ### Concurrency skeleton of the worker pool (C7)

`__init__` line 51 creates `asyncio.Semaphore(max_concurrent)`; the
worker (lines 137-150) dequeues a job, then executes the per-job
pipeline inside `async with self.semaphore`, whose `__aexit__` releases
the slot on success and on failure alike.  The counters below abstract
the workers of a pool: `waiting` workers hold a dequeued job and block
on slot acquisition, `running` workers are inside the `async with`,
`avail` is the semaphore's internal counter. -/

structure PoolState where
  waiting : Nat
  running : Nat
  avail : Nat
  deriving DecidableEq, Repr

/-- One scheduler step of the pool.  `acquire` fires only when a slot
is available; `finish` releases the slot whether the pipeline run
succeeded (`ok = true`) or raised (`ok = false`). -/
inductive PoolStep : PoolState → PoolState → Prop
  | dequeue (w r a : Nat) :
      PoolStep ⟨w, r, a⟩ ⟨w + 1, r, a⟩
  | acquire (w r a : Nat) :
      PoolStep ⟨w + 1, r, a + 1⟩ ⟨w, r + 1, a⟩
  | finish (ok : Bool) (w r a : Nat) :
      PoolStep ⟨w, r + 1, a⟩ ⟨w, r, a + 1⟩

/-- The pool right after `__init__`: nobody waiting or running, `n`
slots free. -/
def poolInit (n : Nat) : PoolState := ⟨0, 0, n⟩

/-! ### `stop()` and the queue-join counter (C3)

`stop()` (lines 108-118) sets `self._shutdown = True` and then awaits
`self.q.join()`, which unblocks exactly when the queue's unfinished-task
counter reaches zero (`put` increments it, `task_done` decrements it).
The single worker task (lines 129-150) re-checks `self._shutdown` at the
top of each iteration and otherwise waits up to 1 s in `q.get()`. -/

inductive WorkerPC where
  | checkLoop
  | waitingGet
  | processing
  | exited
  deriving DecidableEq, Repr

structure QState where
  pending : Nat
  unfinished : Nat
  shutdown : Bool
  pc : WorkerPC
  deriving DecidableEq, Repr

/-- The scheduler steps of `enqueue`/`stop`/`worker`.  `getItem` has no
shutdown guard: a `q.get()` already entered can still return an item
after the flag is set; `loopContinue`/`loopExit` are the
`while not self._shutdown` check. -/
inductive QStep : QState → QState → Prop
  | put (p u : Nat) (sd : Bool) (pc : WorkerPC) :
      QStep ⟨p, u, sd, pc⟩ ⟨p + 1, u + 1, sd, pc⟩
  | setShutdown (p u : Nat) (pc : WorkerPC) :
      QStep ⟨p, u, false, pc⟩ ⟨p, u, true, pc⟩
  | loopContinue (p u : Nat) :
      QStep ⟨p, u, false, .checkLoop⟩ ⟨p, u, false, .waitingGet⟩
  | loopExit (p u : Nat) :
      QStep ⟨p, u, true, .checkLoop⟩ ⟨p, u, true, .exited⟩
  | getItem (p u : Nat) (sd : Bool) :
      QStep ⟨p + 1, u, sd, .waitingGet⟩ ⟨p, u, sd, .processing⟩
  | getTimeout (p u : Nat) (sd : Bool) :
      QStep ⟨p, u, sd, .waitingGet⟩ ⟨p, u, sd, .checkLoop⟩
  | taskDone (p u : Nat) (sd : Bool) :
      QStep ⟨p, u + 1, sd, .processing⟩ ⟨p, u, sd, .checkLoop⟩

/-- The system at process start: empty queue, no shutdown, worker at
the top of its loop. -/
def qInit : QState := ⟨0, 0, false, .checkLoop⟩

/-- How many further `task_done` calls the worker can still perform
once the shutdown flag is set (at most the job currently in flight or
obtainable from the already-entered `q.get()`). -/
def slack : WorkerPC → Nat
  | .waitingGet => 1
  | .processing => 1
  | _ => 0

/-! ### The space of `uuid4().hex[:6]` suffixes (C8) -/

/-- The sixteen characters `uuid.hex` draws from. -/
def hexDigits : List Char := "0123456789abcdef".data

/-- All hex strings of length `n` (as character lists). -/
def hexStrings : Nat → List (List Char)
  | 0 => [[]]
  | n + 1 => (hexStrings n).flatMap (fun s => hexDigits.map (fun c => c :: s))

theorem hexStrings_flatMap_length (l : List (List Char)) :
    (l.flatMap (fun s => hexDigits.map (fun c => c :: s))).length =
      16 * l.length := by
  induction l with
  | nil => rfl
  | cons s rest ih =>
    simp only [List.flatMap_cons, List.length_append, List.length_map, ih,
      List.length_cons]
    have hlen : hexDigits.length = 16 := rfl
    omega

theorem hexStrings_length (n : Nat) : (hexStrings n).length = 16 ^ n := by
  induction n with
  | zero => rfl
  | succ n ih =>
    rw [hexStrings, hexStrings_flatMap_length, ih, pow_succ, Nat.mul_comm]

theorem mem_hexStrings (n : Nat) (s : List Char) :
    s ∈ hexStrings n ↔ s.length = n ∧ ∀ c ∈ s, c ∈ hexDigits := by
  induction n generalizing s with
  | zero =>
    simp only [hexStrings, List.mem_singleton]
    constructor
    · rintro rfl
      simp
    · rintro ⟨h, -⟩
      exact List.eq_nil_of_length_eq_zero h
  | succ n ih =>
    simp only [hexStrings, List.mem_flatMap, List.mem_map]
    constructor
    · rintro ⟨t, ht, c, hc, rfl⟩
      obtain ⟨hlen, hall⟩ := (ih t).mp ht
      refine ⟨by simp [hlen], ?_⟩
      intro d hd
      rcases List.mem_cons.mp hd with rfl | hd
      · exact hc
      · exact hall d hd
    · rintro ⟨hlen, hall⟩
      cases s with
      | nil => simp at hlen
      | cons c t =>
        refine ⟨t, (ih t).mpr ⟨by simpa using hlen, ?_⟩, c, ?_, rfl⟩
        · intro d hd
          exact hall d (List.mem_cons_of_mem _ hd)
        · exact hall c (List.mem_cons_self _ _)

theorem hexStrings_nodup (n : Nat) : (hexStrings n).Nodup := by
  induction n with
  | zero => simp [hexStrings]
  | succ n ih =>
    rw [hexStrings, List.nodup_flatMap]
    refine ⟨fun t ht => ?_, ?_⟩
    · exact (List.nodup_map_iff_inj_on (by decide)).mpr
        (fun a _ b _ hab => by injection hab)
    · refine ih.pairwise_of_forall_ne ?_
      intro t₁ ht₁ t₂ ht₂ hne
      simp only [Function.onFun]
      rw [List.disjoint_left]
      rintro x hx₁ hx₂
      simp only [List.mem_map] at hx₁ hx₂
      obtain ⟨c₁, -, rfl⟩ := hx₁
      obtain ⟨c₂, -, h₂⟩ := hx₂
      injection h₂ with hc ht
      exact hne ht.symm

/-! ### Helper lemmas about `_cleanup_files` -/

theorem fs_remove_mem {fs : FS} {p q : String} :
    q ∈ fs_remove fs p ↔ q ∈ fs ∧ q ≠ p := by
  simp [fs_remove, List.mem_filter, bne_iff_ne]

theorem cleanup_files_subset {locked ps : List String} :
    ∀ {fs : FS} {q : String}, q ∈ (cleanup_files locked ps fs).fs → q ∈ fs := by
  induction ps with
  | nil =>
    intro fs q h
    exact h
  | cons p rest ih =>
    intro fs q h
    unfold cleanup_files at h
    by_cases hp : p ∈ fs
    · rw [if_pos hp] at h
      by_cases hl : p ∈ locked
      · rw [if_pos hl] at h
        exact ih h
      · rw [if_neg hl] at h
        exact (fs_remove_mem.mp (ih h)).1
    · rw [if_neg hp] at h
      exact ih h

theorem cleanup_files_removes {ps : List String} :
    ∀ {fs : FS}, ∀ p ∈ ps, p ∉ (cleanup_files [] ps fs).fs := by
  induction ps with
  | nil =>
    intro fs p hp
    exact absurd hp (List.not_mem_nil p)
  | cons a rest ih =>
    intro fs p hp
    unfold cleanup_files
    rcases List.mem_cons.mp hp with rfl | hp
    · by_cases ha : p ∈ fs
      · rw [if_pos ha, if_neg (List.not_mem_nil p)]
        intro hmem
        exact (fs_remove_mem.mp (cleanup_files_subset hmem)).2 rfl
      · rw [if_neg ha]
        intro hmem
        exact ha (cleanup_files_subset hmem)
    · by_cases ha : a ∈ fs
      · rw [if_pos ha, if_neg (List.not_mem_nil a)]
        exact ih p hp
      · rw [if_neg ha]
        exact ih p hp

theorem cleanup_files_noop {locked : List String} {ps : List String} :
    ∀ {fs : FS}, (∀ p ∈ ps, p ∉ fs) → cleanup_files locked ps fs = ⟨fs, []⟩ := by
  induction ps with
  | nil =>
    intro fs _
    rfl
  | cons a rest ih =>
    intro fs h
    unfold cleanup_files
    rw [if_neg (h a (List.mem_cons_self a rest))]
    exact ih fun p hp => h p (List.mem_cons_of_mem a hp)

theorem cleanup_files_tr_no_notif (locked : List String) :
    ∀ (ps : List String) (fs : FS),
      (cleanup_files locked ps fs).tr.countP is_failure_notif = 0 := by
  intro ps
  induction ps with
  | nil =>
    intro fs
    rfl
  | cons a rest ih =>
    intro fs
    unfold cleanup_files
    by_cases ha : a ∈ fs
    · rw [if_pos ha]
      by_cases hl : a ∈ locked
      · rw [if_pos hl]
        simp [List.countP_cons, is_failure_notif, ih]
      · rw [if_neg hl]
        simp [List.countP_cons, is_failure_notif, ih]
    · rw [if_neg ha]
      exact ih fs

theorem cleanup_files_tr_no_upload (locked : List String) :
    ∀ (ps : List String) (fs : FS),
      (cleanup_files locked ps fs).tr.any Event.isUpload = false := by
  intro ps
  induction ps with
  | nil =>
    intro fs
    rfl
  | cons a rest ih =>
    intro fs
    unfold cleanup_files
    by_cases ha : a ∈ fs
    · rw [if_pos ha]
      by_cases hl : a ∈ locked
      · rw [if_pos hl]
        simp [Event.isUpload, ih]
      · rw [if_neg hl]
        simp [Event.isUpload, ih]
    · rw [if_neg ha]
      exact ih fs

/-! ### Helper lemmas about message texts -/

theorem data_head_append {a : String} {c : Char} (b : String)
    (h : a.data.head? = some c) : (a ++ b).data.head? = some c := by
  rw [String.data_append]
  cases ha : a.data with
  | nil => rw [ha] at h; cases h
  | cons x xs =>
    rw [ha] at h
    cases h
    rfl

theorem initial_status_head (meta : JobMeta) :
    (initial_status_text meta).data.head? = some '📥' := by
  unfold initial_status_text
  exact data_head_append _ (data_head_append _ (data_head_append _
    (data_head_append _ rfl)))

theorem worker_fail_head (meta : JobMeta) (e : PyError) :
    (worker_fail_text meta e).data.head? = some '❌' := by
  unfold worker_fail_text
  exact data_head_append _ (data_head_append _ (data_head_append _ rfl))

theorem initial_status_not_notif (meta : JobMeta) (chat : Nat) :
    is_failure_notif (Event.sendMessage chat (initial_status_text meta)) = false := by
  simp [is_failure_notif, initial_status_head]

theorem worker_fail_is_notif (meta : JobMeta) (e : PyError) (chat : Nat) :
    is_failure_notif (Event.sendMessage chat (worker_fail_text meta e)) = true := by
  simp [is_failure_notif, worker_fail_head]

/-! ### Helper lemmas about the pipeline -/

theorem check_file_size_ok {maxBytes size : Nat}
    (h : check_file_size maxBytes size = .ok ()) :
    size ≤ maxBytes ∧ size ≠ 0 := by
  unfold check_file_size at h
  split at h
  · cases h
  · split at h
    · cases h
    · omega

theorem check_file_size_big {maxBytes size : Nat} (h : size > maxBytes) :
    check_file_size maxBytes size =
      .error (.exception ("Size check failed: File too large: " ++
        natStr size ++ " > " ++ natStr maxBytes ++ " limit")) := by
  unfold check_file_size
  rw [if_pos h]

theorem run_ffmpeg_fail {exitCode : Nat} (stderr : String)
    (h : exitCode ≠ 0) :
    run_ffmpeg exitCode stderr =
      .error (.exception ("FFmpeg error: " ++ strTakeRight stderr 1000)) := by
  unfold run_ffmpeg
  rw [if_pos h]

/-- The `try` body emits no fresh `send_message` at all, in particular
no failure notification. -/
theorem process_body_no_notif (cfg : Config) (meta : JobMeta) (env : Env)
    (tmp water final wtxt : String) (fs0 : FS) :
    (process_body cfg meta env tmp water final wtxt fs0).tr.countP
      is_failure_notif = 0 := by
  unfold process_body upload_and_finish
  repeat' split
  all_goals simp [List.countP_cons, List.countP_append, is_failure_notif]

/-- `process` sends exactly one fresh message (the initial status), and
it is not a failure notification. -/
theorem process_no_notif (cfg : Config) (meta : JobMeta) (env : Env)
    (locked : List String) (fs0 : FS) :
    (process cfg meta env locked fs0).tr.countP is_failure_notif = 0 := by
  unfold process
  split
  · rfl
  split
  · rfl
  split
  · simp [List.countP_cons, initial_status_not_notif]
  · have hbody := process_body_no_notif cfg meta env
      (tmp_path cfg.publicDir meta.lecture_no env.uid)
      (water_path cfg.publicDir meta.lecture_no env.uid)
      (final_path cfg.publicDir meta.lecture_no env.uid)
      (watermark_txt_path cfg.publicDir meta.lecture_no env.uid) fs0
    cases hres : (process_body cfg meta env
        (tmp_path cfg.publicDir meta.lecture_no env.uid)
        (water_path cfg.publicDir meta.lecture_no env.uid)
        (final_path cfg.publicDir meta.lecture_no env.uid)
        (watermark_txt_path cfg.publicDir meta.lecture_no env.uid) fs0).res with
    | ok u =>
      simp [hres, List.countP_append, List.countP_cons,
        initial_status_not_notif, hbody, cleanup_files_tr_no_notif]
    | error e =>
      simp [hres, List.countP_append, List.countP_cons,
        initial_status_not_notif, hbody, cleanup_files_tr_no_notif,
        is_failure_notif, initial_status_head]

/-- Which paths `unlink` would fail on only affects the cleanup logs,
never the value `process` returns or raises: a cleanup failure is
logged, not raised. -/
theorem process_res_locked_irrel (cfg : Config) (meta : JobMeta) (env : Env)
    (locked : List String) (fs0 : FS) :
    (process cfg meta env locked fs0).res =
      (process cfg meta env [] fs0).res := by
  unfold process
  split
  · rfl
  split
  · rfl
  split
  · rfl
  · rfl

/-! ### Helper lemmas about the worker loop -/

theorem worker_step_notif_count (cfg : Config) (meta : JobMeta) (env : Env)
    (locked : List String) (fs : FS) {e : PyError}
    (h : (process cfg meta env locked fs).res = .error e) :
    failNotifCount (worker_step cfg meta env locked fs).tr =
      (if env.notifyOk then 1 else 0) := by
  unfold worker_step failNotifCount
  rw [h]
  by_cases hn : env.notifyOk
  · simp [hn, List.countP_append, List.countP_cons, process_no_notif,
      is_failure_notif, worker_fail_head]
  · simp [hn, List.countP_append, List.countP_cons, process_no_notif,
      is_failure_notif]

theorem worker_step_notif_count_ok (cfg : Config) (meta : JobMeta) (env : Env)
    (locked : List String) (fs : FS)
    (h : (process cfg meta env locked fs).res = .ok ()) :
    failNotifCount (worker_step cfg meta env locked fs).tr = 0 := by
  unfold worker_step failNotifCount
  rw [h]
  simp [process_no_notif]

theorem worker_run_task_done (cfg : Config) (locked : List String) :
    ∀ (jobs : List Job) (fs : FS),
      (worker_run cfg locked jobs fs).2 = jobs.length := by
  intro jobs
  induction jobs with
  | nil =>
    intro fs
    rfl
  | cons j rest ih =>
    intro fs
    unfold worker_run
    simp [ih]

/-! ### Helper lemmas about the artifact namer -/

theorem string_append_right_inj {s a b : String} (h : s ++ a = s ++ b) :
    a = b := by
  apply string_data_inj
  have hd := congrArg String.data h
  rw [String.data_append, String.data_append] at hd
  exact List.append_cancel_left hd

/-- The final path component `f"lec_{lecture_no}_{uid}"`. -/
def lec_name (n : Nat) (uid : String) : String :=
  "lec_" ++ natStr n ++ "_" ++ uid

theorem base_path_eq (d : String) (n : Nat) (uid : String) :
    base_path d n uid = d ++ "/" ++ lec_name n uid := rfl

theorem lec_name_data (n : Nat) (uid : String) :
    (lec_name n uid).data =
      "lec_".data ++ (natToDec n ++ ('_' :: uid.data)) := by
  unfold lec_name
  simp only [String.data_append, natStr, List.append_assoc]
  rfl

/-- A six-character suffix drawn from `uuid4().hex`. -/
def uid_ok (uid : String) : Prop :=
  uid.data.length = 6 ∧ ∀ c ∈ uid.data, c ∈ hexDigits

theorem lec_name_no_char {c : Char} {n : Nat} {uid : String}
    (hlec : c ∉ "lec_".data) (hdig : c.isDigit = false)
    (hhex : c ∉ hexDigits) (hus : c ≠ '_')
    (huid : ∀ d ∈ uid.data, d ∈ hexDigits) :
    c ∉ (lec_name n uid).data := by
  rw [lec_name_data]
  intro hmem
  rcases List.mem_append.mp hmem with h | h
  · exact hlec h
  rcases List.mem_append.mp h with h | h
  · have := natToDec_all_digits n c h
    rw [hdig] at this
    cases this
  rcases List.mem_cons.mp h with h | h
  · exact hus h
  · exact hhex (huid c h)

theorem lec_name_no_slash {n : Nat} {uid : String}
    (huid : ∀ d ∈ uid.data, d ∈ hexDigits) :
    '/' ∉ (lec_name n uid).data :=
  lec_name_no_char (by decide) (by decide) (by decide) (by decide) huid

theorem lec_name_no_dot {n : Nat} {uid : String}
    (huid : ∀ d ∈ uid.data, d ∈ hexDigits) :
    '.' ∉ (lec_name n uid).data :=
  lec_name_no_char (by decide) (by decide) (by decide) (by decide) huid

theorem with_suffix_base (d : String) (n : Nat) {uid : String}
    (huid : ∀ d ∈ uid.data, d ∈ hexDigits) (suffix : String) :
    with_suffix (base_path d n uid) suffix = base_path d n uid ++ suffix := by
  rw [base_path_eq]
  exact with_suffix_append suffix (lec_name_no_slash huid) (lec_name_no_dot huid)

theorem base_path_inj {d : String} {n₁ n₂ : Nat} {u₁ u₂ : String}
    (h₁ : u₁.data.length = 6) (h₂ : u₂.data.length = 6) (hne : n₁ ≠ n₂) :
    base_path d n₁ u₁ ≠ base_path d n₂ u₂ := by
  intro h
  rw [base_path_eq, base_path_eq] at h
  have hname : lec_name n₁ u₁ = lec_name n₂ u₂ := string_append_right_inj h
  have hdata := congrArg String.data hname
  rw [lec_name_data, lec_name_data] at hdata
  have htail := List.append_cancel_left hdata
  obtain ⟨hdec, -⟩ := List.append_inj' htail (by simp [h₁, h₂])
  exact hne (natToDec_injective hdec)

theorem derived_paths_eq (d : String) (n : Nat) {uid : String}
    (huid : ∀ d ∈ uid.data, d ∈ hexDigits) :
    derived_paths d n uid =
      [base_path d n uid ++ ".tmp.mp4", base_path d n uid ++ ".water.mp4",
       base_path d n uid ++ ".mp4", base_path d n uid ++ ".txt"] := by
  unfold derived_paths tmp_path water_path final_path watermark_txt_path
  rw [with_suffix_base d n huid, with_suffix_base d n huid,
    with_suffix_base d n huid, with_suffix_base d n huid]

/-! ### Helper lemmas: uploads happen only after the size checks -/

/-- The byte size the final artifact has when the pipeline reaches the
upload step: the thumbnail mux output in the thumbnail branch, the
renamed watermarked file otherwise. -/
def final_size (cfg : Config) (env : Env) : Nat :=
  if cfg.thumbPath.isSome && env.thumbExists then env.thumbFinalSize
  else env.waterSize

theorem upload_and_finish_size {cfg : Config} {meta : JobMeta} {env : Env}
    {final : String} {finalSize : Nat} {fs : FS} {tr : List Event}
    (h : ((upload_and_finish cfg meta env final finalSize fs tr).tr.any
      Event.isUpload) = true)
    (htr : tr.any Event.isUpload = false) :
    finalSize ≤ cfg.maxFileSizeBytes ∧ finalSize ≠ 0 := by
  unfold upload_and_finish at h
  split at h
  · rw [htr] at h
    cases h
  · rename_i u heq
    cases u
    exact check_file_size_ok heq

theorem process_body_upload_sizes {cfg : Config} {meta : JobMeta} {env : Env}
    {tmp water final wtxt : String} {fs0 : FS}
    (h : ((process_body cfg meta env tmp water final wtxt fs0).tr.any
      Event.isUpload) = true) :
    env.tmpSize ≤ cfg.maxFileSizeBytes ∧
      env.waterSize ≤ cfg.maxFileSizeBytes ∧
      final_size cfg env ≤ cfg.maxFileSizeBytes := by
  unfold process_body at h
  split at h
  · simp [Event.isUpload] at h
  split at h
  · simp [Event.isUpload] at h
  rename_i u1 heq1
  cases u1
  have htmp := (check_file_size_ok heq1).1
  split at h
  · simp [Event.isUpload] at h
  split at h
  · simp [Event.isUpload] at h
  rename_i u2 heq2
  cases u2
  have hwater := (check_file_size_ok heq2).1
  split at h
  · rename_i hcond
    split at h
    · simp [Event.isUpload] at h
    · have := upload_and_finish_size h (by simp [Event.isUpload])
      exact ⟨htmp, hwater, by rw [final_size, if_pos hcond]; exact this.1⟩
  · rename_i hcond
    dsimp only at h
    split at h
    · have := upload_and_finish_size h (by simp [Event.isUpload])
      refine ⟨htmp, hwater, ?_⟩
      rw [final_size, if_neg hcond]
      exact this.1
    · simp [Event.isUpload] at h

theorem process_upload_sizes {cfg : Config} {meta : JobMeta} {env : Env}
    {locked : List String} {fs0 : FS}
    (h : ((process cfg meta env locked fs0).tr.any Event.isUpload) = true) :
    env.tmpSize ≤ cfg.maxFileSizeBytes ∧
      env.waterSize ≤ cfg.maxFileSizeBytes ∧
      final_size cfg env ≤ cfg.maxFileSizeBytes := by
  unfold process at h
  split at h
  · cases h
  split at h
  · cases h
  split at h
  · simp [Event.isUpload] at h
  · rw [List.any_append, List.any_append, List.any_append] at h
    simp only [Bool.or_eq_true] at h
    rcases h with ((h | h) | h) | h
    · simp [Event.isUpload] at h
    · exact process_body_upload_sizes h
    · cases hres : (process_body cfg meta env
          (tmp_path cfg.publicDir meta.lecture_no env.uid)
          (water_path cfg.publicDir meta.lecture_no env.uid)
          (final_path cfg.publicDir meta.lecture_no env.uid)
          (watermark_txt_path cfg.publicDir meta.lecture_no env.uid) fs0).res with
      | ok u => rw [hres] at h; cases h
      | error e => rw [hres] at h; simp [Event.isUpload] at h
    · rw [cleanup_files_tr_no_upload] at h
      cases h

/-! ### Invariants of the transition systems -/

theorem poolStep_preserves {s s' : PoolState} (h : PoolStep s s') :
    s.running + s.avail = s'.running + s'.avail := by
  cases h <;> simp <;> omega

theorem qstep_shutdown_mono {s s' : QState} (h : QStep s s')
    (hsd : s.shutdown = true) :
    s'.shutdown = true ∧
      s.unfinished + slack s'.pc ≤ s'.unfinished + slack s.pc := by
  cases h <;> simp_all [slack]

/-- The state `stop()` leaves behind when it is called while two
accepted jobs are still pending and the worker is idle inside
`q.get()`: shutdown flag set, two queue items, unfinished counter 2. -/
def stopPendingState : QState := ⟨2, 2, true, .waitingGet⟩

/-- C7: with pool size `n`, at no point do more than `n` pipeline runs
hold a slot: the worker acquires a slot from the semaphore before the
pipeline and releases it unconditionally afterwards (`PoolStep.finish`
fires for a succeeding and for a failing run alike), so in every
reachable pool state `running + avail = n` and hence `running ≤ n`. -/
theorem claim_C7_semaphore_bound (n : Nat) :
    ∀ s : PoolState, Relation.ReflTransGen PoolStep (poolInit n) s →
      s.running + s.avail = n ∧ s.running ≤ n := by
  intro s h
  induction h with
  | refl => simp [poolInit]
  | tail hsteps hstep ih =>
    obtain ⟨h1, -⟩ := ih
    have h2 := poolStep_preserves hstep
    omega

theorem claim_C7_witness :
    (⟨0, 1, 2⟩ : PoolState).running + (⟨0, 1, 2⟩ : PoolState).avail = 3 ∧
      (⟨0, 1, 2⟩ : PoolState).running ≤ 3 :=
  claim_C7_semaphore_bound 3 ⟨0, 1, 2⟩
    (Relation.ReflTransGen.tail
      (Relation.ReflTransGen.tail Relation.ReflTransGen.refl
        (PoolStep.dequeue 0 0 3))
      (PoolStep.acquire 0 0 2))

/-- C3 (code bug): `stop()` does not return once the worker has seen
the shutdown flag while jobs are still pending.  `stopPendingState`
(two accepted jobs pending, shutdown set, worker idle in `q.get`) is
reachable from process start, and from it every reachable state keeps
`unfinished ≠ 0`: the worker loop exits on the flag after at most one
more `task_done`, so `q.join()` — which unblocks only at
`unfinished = 0` — blocks forever and `stop()` never returns, contrary
to the claim that it returns after the queue drains. -/
theorem claim_C3_stop_deadlock :
    Relation.ReflTransGen QStep qInit stopPendingState ∧
      ∀ s : QState, Relation.ReflTransGen QStep stopPendingState s →
        s.unfinished ≠ 0 := by
  constructor
  · exact Relation.ReflTransGen.tail
      (Relation.ReflTransGen.tail
        (Relation.ReflTransGen.tail
          (Relation.ReflTransGen.tail Relation.ReflTransGen.refl
            (QStep.put 0 0 false .checkLoop))
          (QStep.put 1 1 false .checkLoop))
        (QStep.loopContinue 2 2))
      (QStep.setShutdown 2 2 .waitingGet)
  · intro s h
    have key : s.shutdown = true ∧
        stopPendingState.unfinished + slack s.pc ≤
          s.unfinished + slack stopPendingState.pc := by
      induction h with
      | refl => exact ⟨rfl, le_refl _⟩
      | tail hsteps hstep ih =>
        obtain ⟨hsd, hm⟩ := ih
        obtain ⟨hsd', hm'⟩ := qstep_shutdown_mono hstep hsd
        exact ⟨hsd', by omega⟩
    have h2 := key.2
    simp only [stopPendingState, slack] at h2
    omega

theorem claim_C3_witness : stopPendingState.unfinished ≠ 0 :=
  claim_C3_stop_deadlock.2 stopPendingState Relation.ReflTransGen.refl

/-! ### Claims about cleanup and the worker boundary -/

/-- C1: on every exit path of `process` — success, validation failure,
disk-space failure, status-send failure, stage failure, upload
failure — every one of the four derived paths is absent from the
filesystem when the call returns (the early exits precede any file
creation; every later exit runs the `finally` cleanup), and a failure
of the cleanup step itself (`locked` arbitrary) is only logged: it
never changes what `process` returns or raises. -/
theorem claim_C1_cleanup_every_exit (cfg : Config) (meta : JobMeta)
    (env : Env) (locked : List String) (fs0 : FS)
    (hfresh : ∀ p ∈ derived_paths cfg.publicDir meta.lecture_no env.uid,
      p ∉ fs0) :
    (∀ p ∈ derived_paths cfg.publicDir meta.lecture_no env.uid,
        p ∉ (process cfg meta env [] fs0).fs) ∧
    (process cfg meta env locked fs0).res =
      (process cfg meta env [] fs0).res := by
  refine ⟨?_, process_res_locked_irrel cfg meta env locked fs0⟩
  intro p hp
  unfold process
  split
  · exact hfresh p hp
  split
  · exact hfresh p hp
  split
  · exact hfresh p hp
  · exact cleanup_files_removes p hp

/-- Concrete fixtures for the witnesses: a processor without a Telethon
session, a valid and an invalid job, and an all-stages-succeed world. -/
def demoCfg : Config :=
  ⟨"/work/public", some "/work/thumb.jpg", "wm", "https://t.me/x", 1,
    2147483648, "ffmpeg", false⟩

def demoMeta : JobMeta :=
  ⟨"Batch", "Subject", 1, 3, "https://e.com/a.m3u8", 77⟩

def demoMetaBad : JobMeta :=
  ⟨"Batch", "Subject", 1, 3, "https://e.com/a.mp4", 77⟩

def demoEnv : Env :=
  ⟨4294967296, true, "net down", "a1b2c3", 0, "", 1000, 0, "", 2000,
    true, 0, "", 3000, true, true, []⟩

theorem claim_C1_witness :
    (∀ p ∈ derived_paths demoCfg.publicDir demoMeta.lecture_no demoEnv.uid,
        p ∉ (process demoCfg demoMeta demoEnv [] []).fs) ∧
    (process demoCfg demoMeta demoEnv ["/locked"] []).res =
      (process demoCfg demoMeta demoEnv [] []).res :=
  claim_C1_cleanup_every_exit demoCfg demoMeta demoEnv ["/locked"] []
    (by intro p hp; exact List.not_mem_nil p)

/-- C9: invoking the cleanup step twice over the same path list is
safe.  After one invocation whose deletions succeeded, a second
invocation — even one in which arbitrary paths' `unlink` would fail —
finds none of the paths on disk, changes nothing, emits nothing, and
(by the return type of `cleanup_files`, whose per-path `try/except`
swallows `unlink` errors) cannot raise. -/
theorem claim_C9_cleanup_idempotent (locked ps : List String) (fs : FS) :
    cleanup_files locked ps (cleanup_files [] ps fs).fs =
      ⟨(cleanup_files [] ps fs).fs, []⟩ :=
  cleanup_files_noop fun p hp => cleanup_files_removes p hp

/-- C4: the worker loop is a total function of the job list — no job
error escapes it.  Its `finally` marks every dequeued item done, so the
`task_done` count equals the number of jobs regardless of failures, and
a failing job yields exactly one failure notification when the
notification send succeeds and zero (the failure is only logged) when
it fails too. -/
theorem claim_C4_worker_isolation :
    (∀ (cfg : Config) (locked : List String) (jobs : List Job) (fs : FS),
        (worker_run cfg locked jobs fs).2 = jobs.length) ∧
    (∀ (cfg : Config) (meta : JobMeta) (env : Env) (locked : List String)
        (fs : FS) (e : PyError),
        (process cfg meta env locked fs).res = .error e →
        failNotifCount (worker_step cfg meta env locked fs).tr =
          (if env.notifyOk then 1 else 0)) :=
  ⟨fun cfg locked jobs fs => worker_run_task_done cfg locked jobs fs,
   fun cfg meta env locked fs _ h =>
     worker_step_notif_count cfg meta env locked fs h⟩

theorem claim_C4_witness :
    (worker_run demoCfg [] [⟨demoMeta, demoEnv⟩, ⟨demoMetaBad, demoEnv⟩] []).2 =
      ([⟨demoMeta, demoEnv⟩, ⟨demoMetaBad, demoEnv⟩] : List Job).length ∧
    failNotifCount (worker_step demoCfg demoMetaBad demoEnv [] []).tr =
      (if demoEnv.notifyOk then 1 else 0) :=
  ⟨claim_C4_worker_isolation.1 demoCfg [] [⟨demoMeta, demoEnv⟩, ⟨demoMetaBad, demoEnv⟩] [],
   claim_C4_worker_isolation.2 demoCfg demoMetaBad demoEnv [] []
     (.valueError "Invalid m3u8 URL (must be HTTP and contain .m3u8)") rfl⟩

/-- C5: a job whose source locator does not start with an HTTP scheme
or does not contain the (case-insensitive) `.m3u8` marker makes
`process` raise `ValueError` before anything else happens: no
subprocess is spawned, no file is created, no message is sent inside
`process` (the trace is empty and the filesystem untouched), and the
worker then sends exactly one failure notification. -/
theorem claim_C5_validation (cfg : Config) (meta : JobMeta) (env : Env)
    (locked : List String) (fs : FS)
    (hbad : strStartsWith meta.m3u8 "http" = false ∨
      strContains (strToLower meta.m3u8) ".m3u8" = false)
    (hnotify : env.notifyOk = true) :
    (process cfg meta env locked fs).res =
      .error (.valueError "Invalid m3u8 URL (must be HTTP and contain .m3u8)") ∧
    (process cfg meta env locked fs).fs = fs ∧
    (process cfg meta env locked fs).tr = [] ∧
    failNotifCount (worker_step cfg meta env locked fs).tr = 1 := by
  have hvalid : valid_m3u8 meta.m3u8 = false := by
    unfold valid_m3u8
    rcases hbad with h | h <;> simp [h]
  have hres : (process cfg meta env locked fs).res =
      .error (.valueError "Invalid m3u8 URL (must be HTTP and contain .m3u8)") := by
    simp [process, hvalid]
  refine ⟨hres, ?_, ?_, ?_⟩
  · simp [process, hvalid]
  · simp [process, hvalid]
  · rw [worker_step_notif_count cfg meta env locked fs hres, hnotify]
    rfl

theorem claim_C5_witness :
    ((strStartsWith demoMetaBad.m3u8 "http" = false ∨
        strContains (strToLower demoMetaBad.m3u8) ".m3u8" = false) ∧
      demoEnv.notifyOk = true) ∧
    ((process demoCfg demoMetaBad demoEnv [] []).res =
        .error (.valueError "Invalid m3u8 URL (must be HTTP and contain .m3u8)") ∧
      (process demoCfg demoMetaBad demoEnv [] []).fs = [] ∧
      (process demoCfg demoMetaBad demoEnv [] []).tr = [] ∧
      failNotifCount (worker_step demoCfg demoMetaBad demoEnv [] []).tr = 1) :=
  ⟨⟨Or.inr (by decide), rfl⟩,
   claim_C5_validation demoCfg demoMetaBad demoEnv [] []
     (Or.inr (by decide)) rfl⟩

/-- C6: a non-zero toolchain exit makes `run_ffmpeg` raise an error
whose message is the fixed prefix followed by the last 1000 characters
of the captured stderr — so the message always contains the diagnostic
tail.  In the concrete fetch scenario (exit 1, stderr
`"403 Forbidden"`), the raised error's message contains
`"403 Forbidden"`, the worker sends exactly one failure notification,
and neither the `.water` nor the final path is on disk when `process`
returns. -/
theorem claim_C6_toolchain_error (cfg : Config) (meta : JobMeta)
    (env : Env) (fs : FS)
    (hvalid : valid_m3u8 meta.m3u8 = true)
    (hspace : ¬ 2 * env.freeSpace < 3 * cfg.maxFileSizeBytes)
    (hstatus : env.statusOk = true)
    (hexit : env.fetchExit = 1)
    (hstderr : env.fetchStderr = "403 Forbidden")
    (hnotify : env.notifyOk = true) :
    (∀ (exitCode : Nat) (stderr : String), exitCode ≠ 0 →
        run_ffmpeg exitCode stderr =
          .error (.exception ("FFmpeg error: " ++ strTakeRight stderr 1000)) ∧
        strContains ("FFmpeg error: " ++ strTakeRight stderr 1000)
          (strTakeRight stderr 1000) = true) ∧
    (process cfg meta env [] fs).res =
      .error (.exception "FFmpeg error: 403 Forbidden") ∧
    strContains "FFmpeg error: 403 Forbidden" "403 Forbidden" = true ∧
    water_path cfg.publicDir meta.lecture_no env.uid ∉
      (process cfg meta env [] fs).fs ∧
    final_path cfg.publicDir meta.lecture_no env.uid ∉
      (process cfg meta env [] fs).fs ∧
    failNotifCount (worker_step cfg meta env [] fs).tr = 1 := by
  have hgen : ∀ (exitCode : Nat) (stderr : String), exitCode ≠ 0 →
      run_ffmpeg exitCode stderr =
        .error (.exception ("FFmpeg error: " ++ strTakeRight stderr 1000)) ∧
      strContains ("FFmpeg error: " ++ strTakeRight stderr 1000)
        (strTakeRight stderr 1000) = true := by
    intro exitCode stderr hne
    exact ⟨run_ffmpeg_fail stderr hne, strContains_append_left _ _⟩
  have hrun : run_ffmpeg env.fetchExit env.fetchStderr =
      .error (.exception "FFmpeg error: 403 Forbidden") := by
    rw [hexit, hstderr]
    rfl
  have hres : (process cfg meta env [] fs).res =
      .error (.exception "FFmpeg error: 403 Forbidden") := by
    unfold process
    rw [if_neg (by simp [hvalid]), if_neg hspace, if_neg (by simp [hstatus])]
    dsimp only
    unfold process_body
    rw [hrun]
  have hfs : ∀ p ∈ derived_paths cfg.publicDir meta.lecture_no env.uid,
      p ∉ (process cfg meta env [] fs).fs := by
    intro p hp
    unfold process
    rw [if_neg (by simp [hvalid]), if_neg hspace, if_neg (by simp [hstatus])]
    exact cleanup_files_removes p hp
  refine ⟨hgen, hres, by decide, ?_, ?_, ?_⟩
  · exact hfs _ (by
      unfold derived_paths
      exact List.mem_cons_of_mem _ (List.mem_cons_self _ _))
  · exact hfs _ (by
      unfold derived_paths
      exact List.mem_cons_of_mem _ (List.mem_cons_of_mem _
        (List.mem_cons_self _ _)))
  · rw [worker_step_notif_count cfg meta env [] fs hres, hnotify]
    rfl

/-- The all-ok world with a failing fetch stage. -/
def demoEnvFetchFail : Env :=
  { demoEnv with fetchExit := 1, fetchStderr := "403 Forbidden" }

theorem claim_C6_witness :
    (run_ffmpeg 1 "403 Forbidden" =
        .error (.exception ("FFmpeg error: " ++ strTakeRight "403 Forbidden" 1000)) ∧
      strContains ("FFmpeg error: " ++ strTakeRight "403 Forbidden" 1000)
        (strTakeRight "403 Forbidden" 1000) = true) ∧
    (process demoCfg demoMeta demoEnvFetchFail [] []).res =
      .error (.exception "FFmpeg error: 403 Forbidden") ∧
    water_path demoCfg.publicDir demoMeta.lecture_no demoEnvFetchFail.uid ∉
      (process demoCfg demoMeta demoEnvFetchFail [] []).fs ∧
    failNotifCount (worker_step demoCfg demoMeta demoEnvFetchFail [] []).tr = 1 :=
  have h := claim_C6_toolchain_error demoCfg demoMeta demoEnvFetchFail []
    (by decide) (by decide) rfl rfl rfl rfl
  ⟨h.1 1 "403 Forbidden" (by decide), h.2.1, h.2.2.2.1, h.2.2.2.2.2⟩

/-! ### The artifact namer claim -/

theorem isPrefixOf_append (a b : List Char) : a.isPrefixOf (a ++ b) = true := by
  induction a with
  | nil => simp [List.isPrefixOf]
  | cons x xs ih => simp [List.isPrefixOf, ih]

theorem strStartsWith_append (a b : String) :
    strStartsWith (a ++ b) a = true := by
  unfold strStartsWith
  rw [String.data_append]
  exact isPrefixOf_append a.data b.data

theorem append_suffix_ne (b : String) {s t : String} (hne : s ≠ t) :
    b ++ s ≠ b ++ t :=
  fun h => hne (string_append_right_inj h)

/-- C8: with a six-hex-character suffix, the namer produces four
pairwise-distinct paths, all rooted in the shared output directory;
bases of jobs with distinct sequence numbers differ for every pair of
suffixes; and the suffix space has exactly `16^6 = 2^24` elements
(entropy 24 bits). -/
theorem claim_C8_namer :
    (∀ (d : String) (n : Nat) (uid : String), uid_ok uid →
        (derived_paths d n uid).Nodup ∧
        ∀ p ∈ derived_paths d n uid, strStartsWith p (d ++ "/") = true) ∧
    (∀ (d : String) (n₁ n₂ : Nat) (u₁ u₂ : String), uid_ok u₁ → uid_ok u₂ →
        n₁ ≠ n₂ → base_path d n₁ u₁ ≠ base_path d n₂ u₂) ∧
    ((hexStrings 6).length = 2 ^ 24 ∧ (hexStrings 6).Nodup ∧
      ∀ uid : String, uid_ok uid ↔ uid.data ∈ hexStrings 6) := by
  refine ⟨?_, ?_, ?_, ?_, ?_⟩
  · intro d n uid huid
    rw [derived_paths_eq d n huid.2]
    constructor
    · show (List.map (fun s => base_path d n uid ++ s)
        [".tmp.mp4", ".water.mp4", ".mp4", ".txt"]).Nodup
      exact List.Nodup.map (fun s t h => string_append_right_inj h) (by decide)
    · intro p hp
      have hbase : base_path d n uid = (d ++ "/") ++ lec_name n uid := by
        rw [base_path_eq, String.append_assoc]
      rcases List.mem_cons.mp hp with rfl | hp
      · rw [hbase, String.append_assoc]
        exact strStartsWith_append _ _
      rcases List.mem_cons.mp hp with rfl | hp
      · rw [hbase, String.append_assoc]
        exact strStartsWith_append _ _
      rcases List.mem_cons.mp hp with rfl | hp
      · rw [hbase, String.append_assoc]
        exact strStartsWith_append _ _
      rcases List.mem_cons.mp hp with rfl | hp
      · rw [hbase, String.append_assoc]
        exact strStartsWith_append _ _
      · exact absurd hp (List.not_mem_nil p)
  · intro d n₁ n₂ u₁ u₂ h₁ h₂ hne
    exact base_path_inj h₁.1 h₂.1 hne
  · rw [hexStrings_length]
    norm_num
  · exact hexStrings_nodup 6
  · intro uid
    exact (mem_hexStrings 6 uid.data).symm

theorem claim_C8_witness :
    ((derived_paths "/work/public" 1 "a1b2c3").Nodup ∧
      ∀ p ∈ derived_paths "/work/public" 1 "a1b2c3",
        strStartsWith p ("/work/public" ++ "/") = true) ∧
    base_path "/work/public" 1 "a1b2c3" ≠ base_path "/work/public" 2 "ffffff" :=
  ⟨claim_C8_namer.1 "/work/public" 1 "a1b2c3" ⟨by decide, by decide⟩,
   claim_C8_namer.2.1 "/work/public" 1 2 "a1b2c3" "ffffff"
     ⟨by decide, by decide⟩ ⟨by decide, by decide⟩ (by decide)⟩

/-- C10: `_check_file_size` rejects any stage output strictly larger
than the configured maximum (the spec never states this bound), and
whenever `process` emits an upload event — through either backend —
every stage's size, including the final artifact's, was within the
configured maximum. -/
theorem claim_C10_size_cap :
    (∀ maxBytes size : Nat, size > maxBytes →
        check_file_size maxBytes size =
          .error (.exception ("Size check failed: File too large: " ++
            natStr size ++ " > " ++ natStr maxBytes ++ " limit"))) ∧
    (∀ (cfg : Config) (meta : JobMeta) (env : Env) (locked : List String)
        (fs0 : FS),
        ((process cfg meta env locked fs0).tr.any Event.isUpload) = true →
        env.tmpSize ≤ cfg.maxFileSizeBytes ∧
        env.waterSize ≤ cfg.maxFileSizeBytes ∧
        final_size cfg env ≤ cfg.maxFileSizeBytes) :=
  ⟨fun _ _ h => check_file_size_big h,
   fun _ _ _ _ _ h => process_upload_sizes h⟩

theorem claim_C10_witness :
    check_file_size 3 5 =
      .error (.exception ("Size check failed: File too large: " ++
        natStr 5 ++ " > " ++ natStr 3 ++ " limit")) ∧
    (demoEnv.tmpSize ≤ demoCfg.maxFileSizeBytes ∧
      demoEnv.waterSize ≤ demoCfg.maxFileSizeBytes ∧
      final_size demoCfg demoEnv ≤ demoCfg.maxFileSizeBytes) :=
  ⟨claim_C10_size_cap.1 3 5 (by decide),
   claim_C10_size_cap.2 demoCfg demoMeta demoEnv [] [] (by decide)⟩

/-! ### The delivery fallback (C2) -/

def Event.isBotUpload : Event → Bool
  | .uploadBotDocument _ _ _ _ => true
  | _ => false

/-- An upload event that does not go through the bot backend. -/
def bad_upload (e : Event) : Bool :=
  Event.isUpload e && !Event.isBotUpload e

/-- Under `telethon_client is None`, every upload event any branch of
the `try` body can emit is a bot-token upload. -/
theorem process_body_uploads_bot_any {cfg : Config} {meta : JobMeta}
    {env : Env} {tmp water final wtxt : String} {fs0 : FS}
    (hns : cfg.telethonClient = false) :
    ((process_body cfg meta env tmp water final wtxt fs0).tr.any
      bad_upload) = false := by
  unfold process_body upload_and_finish
  repeat' split
  all_goals
    simp_all [List.any_append, bad_upload, Event.isUpload, Event.isBotUpload]

/-- A `try` body that returns normally had a successful upload call. -/
theorem process_body_ok_upload {cfg : Config} {meta : JobMeta} {env : Env}
    {tmp water final wtxt : String} {fs0 : FS}
    (h : (process_body cfg meta env tmp water final wtxt fs0).res = .ok ()) :
    env.uploadOk = true := by
  unfold process_body upload_and_finish at h
  repeat' split at h
  all_goals simp_all

/-- If the trace of `process` shows an upload, the run went through the
main branch: the body's trace shows that upload and the run's result is
the body's result. -/
theorem process_main_of_upload {cfg : Config} {meta : JobMeta} {env : Env}
    {locked : List String} {fs0 : FS}
    (h : ((process cfg meta env locked fs0).tr.any Event.isUpload) = true) :
    ((process_body cfg meta env
        (tmp_path cfg.publicDir meta.lecture_no env.uid)
        (water_path cfg.publicDir meta.lecture_no env.uid)
        (final_path cfg.publicDir meta.lecture_no env.uid)
        (watermark_txt_path cfg.publicDir meta.lecture_no env.uid) fs0).tr.any
      Event.isUpload) = true ∧
    (process cfg meta env locked fs0).res =
      (process_body cfg meta env
        (tmp_path cfg.publicDir meta.lecture_no env.uid)
        (water_path cfg.publicDir meta.lecture_no env.uid)
        (final_path cfg.publicDir meta.lecture_no env.uid)
        (watermark_txt_path cfg.publicDir meta.lecture_no env.uid) fs0).res := by
  by_cases h1 : ¬ valid_m3u8 meta.m3u8
  · exfalso
    unfold process at h
    rw [if_pos h1] at h
    cases h
  by_cases h2 : 2 * env.freeSpace < 3 * cfg.maxFileSizeBytes
  · exfalso
    unfold process at h
    rw [if_neg h1, if_pos h2] at h
    cases h
  by_cases h3 : ¬ env.statusOk
  · exfalso
    unfold process at h
    rw [if_neg h1, if_neg h2, if_pos h3] at h
    simp [Event.isUpload] at h
  · unfold process at h ⊢
    rw [if_neg h1, if_neg h2, if_neg h3] at h ⊢
    dsimp only at h ⊢
    refine ⟨?_, rfl⟩
    rw [List.any_append, List.any_append, List.any_append] at h
    simp only [Bool.or_eq_true] at h
    rcases h with ((h | h) | h) | h
    · simp [Event.isUpload] at h
    · exact h
    · cases hres : (process_body cfg meta env
          (tmp_path cfg.publicDir meta.lecture_no env.uid)
          (water_path cfg.publicDir meta.lecture_no env.uid)
          (final_path cfg.publicDir meta.lecture_no env.uid)
          (watermark_txt_path cfg.publicDir meta.lecture_no env.uid) fs0).res with
      | ok u => rw [hres] at h; cases h
      | error e => rw [hres] at h; simp [Event.isUpload] at h
    · rw [cleanup_files_tr_no_upload] at h
      cases h

theorem any_bad_of_no_upload {l : List Event}
    (h : l.any Event.isUpload = false) : l.any bad_upload = false := by
  rw [List.any_eq_false] at h ⊢
  intro e he
  have h2 := h e he
  simp only [bad_upload, Bool.and_eq_true, Bool.not_eq_true',
    Bool.not_eq_true] at h2 ⊢
  intro hc
  rw [h2] at hc
  exact absurd hc.1 (by simp)

/-- Every upload event `process` emits with no session backend
configured goes through the bot backend. -/
theorem process_uploads_bot_any {cfg : Config} {meta : JobMeta} {env : Env}
    {locked : List String} {fs0 : FS}
    (hns : cfg.telethonClient = false) :
    ((process cfg meta env locked fs0).tr.any bad_upload) = false := by
  unfold process
  split
  · rfl
  split
  · rfl
  split
  · simp [bad_upload, Event.isUpload]
  · rw [List.any_append, List.any_append, List.any_append]
    simp only [Bool.or_eq_false_iff]
    refine ⟨⟨⟨?_, process_body_uploads_bot_any hns⟩, ?_⟩, ?_⟩
    · simp [bad_upload, Event.isUpload]
    · cases (process_body cfg meta env
          (tmp_path cfg.publicDir meta.lecture_no env.uid)
          (water_path cfg.publicDir meta.lecture_no env.uid)
          (final_path cfg.publicDir meta.lecture_no env.uid)
          (watermark_txt_path cfg.publicDir meta.lecture_no env.uid) fs0).res with
      | ok u => rfl
      | error er => simp [bad_upload, Event.isUpload]
    · exact any_bad_of_no_upload (cleanup_files_tr_no_upload _ _ _)

theorem process_uploads_bot {cfg : Config} {meta : JobMeta} {env : Env}
    {locked : List String} {fs0 : FS}
    (hns : cfg.telethonClient = false) :
    ∀ e ∈ (process cfg meta env locked fs0).tr,
      Event.isUpload e = true → Event.isBotUpload e = true := by
  have h := @process_uploads_bot_any cfg meta env locked fs0 hns
  rw [List.any_eq_false] at h
  intro e he hup
  have h2 := h e he
  simp only [bad_upload, hup, Bool.true_and, Bool.not_eq_true',
    Bool.not_eq_eq_eq_not, Bool.not_true, Bool.not_eq_true] at h2
  simpa using h2

/-- The all-ok world, except the final artifact is 104857600 bytes
(100 MB — far above the 50 MB bot-API ceiling, but below the
configured 2 GiB maximum) and the transport rejects the upload. -/
def demoEnvBig : Env :=
  { demoEnv with
    thumbFinalSize := 104857600
    uploadOk := false
    netErrMsg := "Request Entity Too Large" }

/-- C2 counterexample: a job whose final artifact (100 MB) exceeds the
bot-token backend's 50 MB ceiling while no session backend is
configured.  The claim says such a job fails with a delivery-capability
error, with no partial upload attempted; the code has no size check
against the capped backend's limit and no delivery-capability error
anywhere — it attempts the bot-token upload (an `uploadBotDocument`
event is in the trace) and the job's failure, when the transport
rejects the file, is the transport's own generic error raised after
the attempt. -/
theorem claim_C2_counterexample :
    ((process demoCfg demoMeta demoEnvBig [] []).tr.any
      Event.isBotUpload) = true ∧
    (process demoCfg demoMeta demoEnvBig [] []).res =
      .error (.exception "Request Entity Too Large") :=
  ⟨rfl, rfl⟩

/-- C2 amended: when no session backend is configured, a job whose
pipeline reaches the upload step attempts the bot-token upload
regardless of the artifact's size relative to the capped backend's
ceiling (every upload event goes through the bot backend — no
pre-upload capability check exists); if that upload fails, the job
fails with the transport's error, and the worker then sends exactly one
(generic) failure notification. -/
theorem claim_C2_amended (cfg : Config) (meta : JobMeta) (env : Env)
    (locked : List String) (fs0 : FS)
    (hns : cfg.telethonClient = false)
    (hupload : ((process cfg meta env locked fs0).tr.any Event.isUpload) = true) :
    (∀ e ∈ (process cfg meta env locked fs0).tr,
        Event.isUpload e = true → Event.isBotUpload e = true) ∧
    (env.uploadOk = false →
      ∃ e, (process cfg meta env locked fs0).res = .error e ∧
        (env.notifyOk = true →
          failNotifCount (worker_step cfg meta env locked fs0).tr = 1)) := by
  refine ⟨process_uploads_bot hns, ?_⟩
  intro hup
  obtain ⟨hbody, hres⟩ := process_main_of_upload hupload
  cases hbr : (process_body cfg meta env
      (tmp_path cfg.publicDir meta.lecture_no env.uid)
      (water_path cfg.publicDir meta.lecture_no env.uid)
      (final_path cfg.publicDir meta.lecture_no env.uid)
      (watermark_txt_path cfg.publicDir meta.lecture_no env.uid) fs0).res with
  | ok u =>
    cases u
    exact absurd (process_body_ok_upload hbr) (by simp [hup])
  | error e =>
    refine ⟨e, by rw [hres, hbr], ?_⟩
    intro hn
    rw [worker_step_notif_count cfg meta env locked fs0 (by rw [hres, hbr]), hn]
    rfl

theorem claim_C2_witness :
    (demoCfg.telethonClient = false ∧
      ((process demoCfg demoMeta demoEnvBig [] []).tr.any
        Event.isUpload) = true) ∧
    ((∀ e ∈ (process demoCfg demoMeta demoEnvBig [] []).tr,
        Event.isUpload e = true → Event.isBotUpload e = true) ∧
      (demoEnvBig.uploadOk = false →
        ∃ e, (process demoCfg demoMeta demoEnvBig [] []).res = .error e ∧
          (demoEnvBig.notifyOk = true →
            failNotifCount
              (worker_step demoCfg demoMeta demoEnvBig [] []).tr = 1))) :=
  ⟨⟨rfl, rfl⟩, claim_C2_amended demoCfg demoMeta demoEnvBig [] [] rfl rfl⟩
